import Mathlib

/-!
Verification of the trayrunner configuration-tree engine.

The definitions below are shallow embeddings of the Python sources of the
repository (gui/trayrunner_gui): the node schema (models/schema.py), the
YAML persistence pipeline (models/yaml_io.py), the validator
(models/validators.py), the drag-and-drop block move logic (tree_panel.py),
the duplicate-label helpers (models/utils.py, tree_panel.py), the save
coordinator (services/save_coordinator.py) and the reload client
(services/reloader.py).  Functions are translated line by line from the
source; environment effects (file existence, stat results, socket and
subprocess outcomes, clock readings) are passed as explicit parameters.
-/

/-- Python str.isspace characters as used by str.strip (space, tab,
newline, carriage return, vertical tab, form feed). -/
def pyIsSpace (c : Char) : Bool :=
  c = ' ' || c = '\t' || c = '\n' || c = '\r' || c = '\x0b' || c = '\x0c'

/-- Embedding of the Python expression s.strip(): drop whitespace from both
ends of the string. -/
def pyStrip (s : String) : String :=
  ⟨((s.data.dropWhile pyIsSpace).reverse.dropWhile pyIsSpace).reverse⟩

/-- Embedding of the Python truthiness test used by the validator,
"not v or not v.strip()": true when the string is empty or whitespace. -/
def pyFalsyStr (v : String) : Bool :=
  v = "" || pyStrip v = ""

/-- Python slice src[a:b] on a list (clamping semantics for b beyond the
length and for b less than a are inherited from take and drop). -/
def pySlice (l : List α) (a b : Nat) : List α :=
  (l.take b).drop a

/-- Python statement del src[a:b]: removes exactly the slice elements.
For b below a nothing is removed, matching Python. -/
def pyDelSlice (l : List α) (a b : Nat) : List α :=
  l.take a ++ l.drop (max a b)

/-- Python list.insert(i, x): a negative index counts from the end and is
clamped at zero, an index beyond the length appends at the end. -/
def pyInsert (l : List α) (i : Int) (a : α) : List α :=
  let n : Int := l.length
  let j : Nat := (if i < 0 then max 0 (n + i) else min i n).toNat
  l.take j ++ a :: l.drop j

/-- Embedding of the insertion loop of ConfigTreeModel.dropMimeData
(tree_panel.py lines 248-249): for i, node in enumerate(block):
dst_list.insert(row + i, node), performed sequentially on the growing
list. -/
def insertBlock (dst : List α) (row : Int) : List α → List α
  | [] => dst
  | b :: bs => insertBlock (pyInsert dst row b) (row + 1) bs

mutual
/-- Embedding of the node schema of models/schema.py: the discriminated
union of ItemNode (label, cmd, terminal, confirm, env), GroupNode
(label, items) and SeparatorNode, each carrying the id field.  Sibling
sequences are represented by the mutually defined NodeList. -/
inductive Node where
  | item (id label cmd : String) (terminal confirm : Bool)
      (env : List (String × String))
  | group (id label : String) (items : NodeList)
  | sep (id : String)
deriving DecidableEq, Repr
/-- Sibling sequence of Node values (a Python list of nodes). -/
inductive NodeList where
  | nil
  | cons (hd : Node) (tl : NodeList)
deriving DecidableEq, Repr
end

/-- Convert a NodeList to a plain Lean list of nodes. -/
def NodeList.toList : NodeList → List Node
  | .nil => []
  | .cons h tl => h :: tl.toList

/-- Convert a plain list of nodes to a NodeList. -/
def NodeList.ofList : List Node → NodeList
  | [] => .nil
  | h :: tl => .cons h (NodeList.ofList tl)

/-- The id field common to all three node variants. -/
def Node.nid : Node → String
  | .item i _ _ _ _ _ => i
  | .group i _ _ => i
  | .sep i => i

/-- Python isinstance(node, SeparatorNode). -/
def Node.isSep : Node → Bool
  | .sep _ => true
  | _ => false

/-- Python isinstance(node, GroupNode). -/
def Node.isGroup : Node → Bool
  | .group _ _ _ => true
  | _ => false

mutual
/-- Structured document values as handled by ruamel.yaml in
models/yaml_io.py: strings, booleans, sequences and mappings.  Mappings
are association sequences of key-value pairs (YamlDict). -/
inductive Yaml where
  | str (s : String)
  | bool (b : Bool)
  | arr (xs : YamlList)
  | dict (kvs : YamlDict)
deriving DecidableEq, Repr
/-- Sequence of Yaml values. -/
inductive YamlList where
  | nil
  | cons (hd : Yaml) (tl : YamlList)
deriving DecidableEq, Repr
/-- Mapping of string keys to Yaml values, in insertion order. -/
inductive YamlDict where
  | nil
  | cons (k : String) (v : Yaml) (tl : YamlDict)
deriving DecidableEq, Repr
end

/-- Dump of the env mapping of an ItemNode (a dict of string to string). -/
def dumpEnv : List (String × String) → YamlDict
  | [] => .nil
  | (k, v) :: tl => .cons k (.str v) (dumpEnv tl)

mutual
/-- Embedding of config.model_dump() restricted to one node: every field
of the pydantic model in declaration order, the id field included
(models/schema.py: type, id, label, cmd, terminal, confirm, env for
items; type, id, label, items for groups; type, id for separators). -/
def dumpNode : Node → Yaml
  | .item i label cmd t c env =>
      .dict (.cons "type" (.str "item") (.cons "id" (.str i)
        (.cons "label" (.str label) (.cons "cmd" (.str cmd)
        (.cons "terminal" (.bool t) (.cons "confirm" (.bool c)
        (.cons "env" (.dict (dumpEnv env)) .nil)))))))
  | .group i label items =>
      .dict (.cons "type" (.str "group") (.cons "id" (.str i)
        (.cons "label" (.str label)
        (.cons "items" (.arr (dumpNodes items)) .nil))))
  | .sep i =>
      .dict (.cons "type" (.str "separator") (.cons "id" (.str i) .nil))
/-- model_dump of a sequence of nodes. -/
def dumpNodes : NodeList → YamlList
  | .nil => .nil
  | .cons h tl => .cons (dumpNode h) (dumpNodes tl)
end

/-- Embedding of Config.model_dump(): a root mapping with the single key
"items" holding the dumped node sequence. -/
def dumpConfig (items : NodeList) : Yaml :=
  .dict (.cons "items" (.arr (dumpNodes items)) .nil)

mutual
/-- Embedding of YAMLHandler._remove_ids_recursive (yaml_io.py lines
99-105): on a dict keep the entries whose key differs from "id" and
recurse into their values, on a list recurse into every element, leave
every other value unchanged. -/
def removeIds : Yaml → Yaml
  | .str s => .str s
  | .bool b => .bool b
  | .arr xs => .arr (removeIdsList xs)
  | .dict kvs => .dict (removeIdsDict kvs)
/-- _remove_ids_recursive on a list value. -/
def removeIdsList : YamlList → YamlList
  | .nil => .nil
  | .cons h tl => .cons (removeIds h) (removeIdsList tl)
/-- _remove_ids_recursive on a dict value: the comprehension
filters out the key "id" and recurses on the kept values. -/
def removeIdsDict : YamlDict → YamlDict
  | .nil => .nil
  | .cons k v tl =>
      if k = "id" then removeIdsDict tl
      else .cons k (removeIds v) (removeIdsDict tl)
end

/-- Lookup of a key in a mapping (first occurrence; Python dict keys are
unique). -/
def YamlDict.find : YamlDict → String → Option Yaml
  | .nil, _ => none
  | .cons k v tl, key => if k = key then some v else tl.find key

mutual
/-- Predicate: no mapping anywhere in the value carries the key "id"
(the persisted form never contains the identifier field). -/
def noIdKey : Yaml → Bool
  | .str _ => true
  | .bool _ => true
  | .arr xs => noIdKeyList xs
  | .dict kvs => noIdKeyDict kvs
/-- noIdKey on a list value. -/
def noIdKeyList : YamlList → Bool
  | .nil => true
  | .cons h tl => noIdKey h && noIdKeyList tl
/-- noIdKey on a dict value. -/
def noIdKeyDict : YamlDict → Bool
  | .nil => true
  | .cons k v tl => decide (k ≠ "id") && noIdKey v && noIdKeyDict tl
end

/-- Parse the env mapping back (pydantic field Dict[str, str]: every value
must be a string). -/
def parseEnv : YamlDict → Option (List (String × String))
  | .nil => some []
  | .cons k v tl =>
      match v with
      | .str s => (parseEnv tl).map (fun rest => (k, s) :: rest)
      | _ => none

/-- Read an optional boolean field with its pydantic default. -/
def getBoolField (kvs : YamlDict) (key : String) (dflt : Bool) : Option Bool :=
  match kvs.find key with
  | none => some dflt
  | some (.bool b) => some b
  | some _ => none

/-- Embedding of the label and cmd field validators of models/schema.py:
raise when the value is empty after stripping, otherwise return the
stripped value. -/
def validatedText (s : String) : Option String :=
  if pyFalsyStr s then none else some (pyStrip s)

mutual
/-- Embedding of pydantic model_validate on one node record of the
persisted document (models/schema.py): dispatch on the discriminator
field "type"; label and cmd are required and pass through the stripping
validators; terminal, confirm and env fall back to their defaults; a
missing id field is filled by the uuid default factory, modelled here by
the fixed placeholder "" since no claim compares identifier values. -/
def parseNode : Yaml → Option Node
  | .dict kvs =>
      match kvs.find "type" with
      | some (.str "item") =>
          match kvs.find "label", kvs.find "cmd" with
          | some (.str label), some (.str cmd) =>
              match validatedText label, validatedText cmd with
              | some label2, some cmd2 =>
                  match getBoolField kvs "terminal" false,
                        getBoolField kvs "confirm" false with
                  | some t, some c =>
                      match kvs.find "env" with
                      | none => some (.item "" label2 cmd2 t c [])
                      | some (.dict e) =>
                          (parseEnv e).map
                            (fun env => .item "" label2 cmd2 t c env)
                      | some _ => none
                  | _, _ => none
              | _, _ => none
          | _, _ => none
      | some (.str "group") =>
          match kvs.find "label" with
          | some (.str label) =>
              match validatedText label with
              | some label2 =>
                  match parseItemsField kvs with
                  | none => none
                  | some none => some (.group "" label2 .nil)
                  | some (some items) => some (.group "" label2 items)
              | none => none
          | _ => none
      | some (.str "separator") => some (.sep "")
      | _ => none
  | _ => none
/-- Walk the mapping to its "items" entry and parse that entry as a node
sequence: the outer none is a parse failure, the inner none means the key
is absent (the pydantic default applies). -/
def parseItemsField : YamlDict → Option (Option NodeList)
  | .nil => some none
  | .cons k v tl =>
      if k = "items" then
        match v with
        | .arr xs => (parseNodes xs).map some
        | _ => none
      else parseItemsField tl
/-- model_validate on a sequence of node records. -/
def parseNodes : YamlList → Option NodeList
  | .nil => some .nil
  | .cons h tl =>
      match parseNode h with
      | none => none
      | some n => (parseNodes tl).map (fun rest => .cons n rest)
end

/-- Embedding of Config.model_validate on the root document: a mapping
whose optional key "items" holds the node records (a missing key falls
back to the empty default). -/
def parseConfig : Yaml → Option NodeList
  | .dict kvs =>
      match kvs.find "items" with
      | none => some .nil
      | some (.arr xs) => parseNodes xs
      | some _ => none
  | _ => none

mutual
/-- Erase the identifier of every node in a tree (replace it with the
placeholder ""), the equivalence quotient of the round-trip claim:
identifiers are not required to match. -/
def eraseIds : Node → Node
  | .item _ label cmd t c env => .item "" label cmd t c env
  | .group _ label items => .group "" label (eraseIdsList items)
  | .sep _ => .sep ""
/-- eraseIds on a sequence of nodes. -/
def eraseIdsList : NodeList → NodeList
  | .nil => .nil
  | .cons h tl => .cons (eraseIds h) (eraseIdsList tl)
end

mutual
/-- Well-formedness of a node as the pydantic constructors maintain it:
labels and commands are non-empty and already stripped (the schema field
validators strip on construction). -/
def wfNode : Node → Bool
  | .item _ label cmd _ _ _ =>
      !pyFalsyStr label && (pyStrip label = label) &&
      (!pyFalsyStr cmd && (pyStrip cmd = cmd))
  | .group _ label items =>
      !pyFalsyStr label && (pyStrip label = label) && wfList items
  | .sep _ => true
/-- wfNode on a sequence of nodes. -/
def wfList : NodeList → Bool
  | .nil => true
  | .cons h tl => wfNode h && wfList tl
end

mutual
/-- Predicate: no env mapping in the tree carries an entry whose key is
the string "id" (such entries collide with the identifier stripping of
_remove_ids_recursive). -/
def noEnvId : Node → Bool
  | .item _ _ _ _ _ env => env.all (fun p => p.1 ≠ "id")
  | .group _ _ items => noEnvIdList items
  | .sep _ => true
/-- noEnvId on a sequence of nodes. -/
def noEnvIdList : NodeList → Bool
  | .nil => true
  | .cons h tl => noEnvId h && noEnvIdList tl
end

/-- Embedding of the ValidationError model of models/schema.py: severity
(the Python field named type), location path, message, optional field
name. -/
structure VErr where
  sev : String
  location : String
  message : String
  fieldName : Option String
deriving DecidableEq, Repr

/-- True for the records the validator files in its errors list. -/
def VErr.isErr (e : VErr) : Bool := e.sev == "error"

/-- True for the records the validator files in its warnings list. -/
def VErr.isWarn (e : VErr) : Bool := e.sev == "warning"

/-- Environment-variable checks of ConfigValidator._validate_item, in
iteration order: an empty key is an error; the isinstance(value, str)
check can never fire here because env values are strings by type. -/
def envErrs (path : String) : List (String × String) → List VErr
  | [] => []
  | (k, _) :: tl =>
      (if pyFalsyStr k then
        [⟨"error", path, "Environment variable key cannot be empty",
          some ("env." ++ k)⟩]
       else []) ++ envErrs path tl

/-- Error sequence of ConfigValidator._validate_item: label check, then
command check, then the environment checks (validators.py lines 69-104).
The item branch appends no warnings. -/
def itemErrs (path label cmd : String) (env : List (String × String)) :
    List VErr :=
  (if pyFalsyStr label then
    [⟨"error", path, "Item label cannot be empty", some "label"⟩]
   else []) ++
  (if pyFalsyStr cmd then
    [⟨"error", path, "Item command cannot be empty", some "cmd"⟩]
   else []) ++
  envErrs path env

/-- Embedding of ConfigValidator._check_duplicate_labels (validators.py
lines 132-154): walk the sibling list with the set of labels seen so far;
an Item or Group label already seen is flagged, the first occurrence is
not; separators are skipped; every Item or Group label is recorded. -/
def dupErrs (path : String) : Nat → List String → NodeList → List VErr
  | _, _, .nil => []
  | i, seen, .cons n tl =>
      match n with
      | .item _ label _ _ _ _ =>
          (if seen.contains label then
            [⟨"error", path ++ ".items[" ++ Nat.repr i ++ "]",
              "Duplicate label: " ++ label, some "label"⟩]
           else []) ++ dupErrs path (i + 1) (label :: seen) tl
      | .group _ label _ =>
          (if seen.contains label then
            [⟨"error", path ++ ".items[" ++ Nat.repr i ++ "]",
              "Duplicate label: " ++ label, some "label"⟩]
           else []) ++ dupErrs path (i + 1) (label :: seen) tl
      | .sep _ => dupErrs path (i + 1) seen tl

/-- True when the sibling sequence is empty (detects the last position of
the enumeration). -/
def NodeList.isNil : NodeList → Bool
  | .nil => true
  | .cons _ _ => false

/-- True when the next sibling exists and is a separator. -/
def NodeList.headIsSep : NodeList → Bool
  | .nil => false
  | .cons n _ => n.isSep

mutual
/-- Warnings one loop iteration of
ConfigValidator._validate_separator_placement appends for the node at
index i whose remaining siblings are tl: for a separator the
at-beginning, at-end and back-to-back warnings in that order; for a
group the recursive walk of its children (validators.py lines 156-187). -/
def sepWarnsNode (path : String) (i : Nat) (n : Node) (tl : NodeList) :
    List VErr :=
  match n with
  | .sep _ =>
      (if i = 0 then
        [⟨"warning", path ++ "[" ++ Nat.repr i ++ "]",
          "Separator at beginning has no visual effect", some "type"⟩]
       else []) ++
      (if tl.isNil then
        [⟨"warning", path ++ "[" ++ Nat.repr i ++ "]",
          "Separator at end has no visual effect", some "type"⟩]
       else []) ++
      (if tl.headIsSep then
        [⟨"warning", path ++ "[" ++ Nat.repr i ++ "]",
          "Back-to-back separators have no visual effect", some "type"⟩]
       else [])
  | .group _ _ items =>
      sepWarnsList (path ++ "[" ++ Nat.repr i ++ "].items") 0 items
  | .item _ _ _ _ _ _ => []
/-- The separator-placement walk over a sibling sequence starting at
index i. -/
def sepWarnsList (path : String) (i : Nat) : NodeList → List VErr
  | .nil => []
  | .cons n tl => sepWarnsNode path i n tl ++ sepWarnsList path (i + 1) tl
end

mutual
/-- Embedding of ConfigValidator._validate_node (validators.py lines
51-130) as the pair (errors appended, warnings appended), each component
in append order: an item contributes only errors; a group contributes its
label error, then either the no-items warning or its recursively
validated children followed by the duplicate-label check of its child
list; a separator contributes nothing. -/
def vNode (path : String) : Node → List VErr × List VErr
  | .item _ label cmd _ _ env => (itemErrs path label cmd env, [])
  | .group _ label items =>
      let le := if pyFalsyStr label then
        [⟨"error", path, "Group label cannot be empty", some "label"⟩]
      else []
      match items with
      | .nil => (le, [⟨"warning", path, "Group has no items", some "items"⟩])
      | .cons h tl =>
          let p := vNodes (path ++ ".items") 0 (.cons h tl)
          (le ++ p.1 ++ dupErrs path 0 [] (.cons h tl), p.2)
  | .sep _ => ([], [])
/-- _validate_node over a sibling sequence: node at index i gets the
location pre[i]. -/
def vNodes (pre : String) (i : Nat) : NodeList → List VErr × List VErr
  | .nil => ([], [])
  | .cons n tl =>
      let p1 := vNode (pre ++ "[" ++ Nat.repr i ++ "]") n
      let p2 := vNodes pre (i + 1) tl
      (p1.1 ++ p2.1, p1.2 ++ p2.2)
end

/-- Embedding of ConfigValidator.validate_config (validators.py lines
16-49): an empty tree returns the single no-items warning; otherwise the
per-node validation, the root duplicate-label check and the separator
placement walk run in that order, and the method returns
self.errors + self.warnings, the errors list followed by the warnings
list. -/
def validateConfig (items : NodeList) : List VErr :=
  match items with
  | .nil => [] ++ [⟨"warning", "root", "Configuration has no items",
      some "items"⟩]
  | .cons h tl =>
      let p := vNodes "items" 0 (.cons h tl)
      let es := p.1 ++ dupErrs "root" 0 [] (.cons h tl)
      let ws := p.2 ++ sepWarnsList "items" 0 (.cons h tl)
      es ++ ws

mutual
/-- The emission-order reading of the claim: the single interleaved
sequence of validation records in exactly the order the rules append
them during the traversal (each record goes to the errors or the
warnings list of the Python validator according to its severity; this
definition keeps the append order instead of the two lists). -/
def eNode (path : String) : Node → List VErr
  | .item _ label cmd _ _ env => itemErrs path label cmd env
  | .group _ label items =>
      let le := if pyFalsyStr label then
        [⟨"error", path, "Group label cannot be empty", some "label"⟩]
      else []
      match items with
      | .nil => le ++ [⟨"warning", path, "Group has no items", some "items"⟩]
      | .cons h tl =>
          le ++ eNodes (path ++ ".items") 0 (.cons h tl) ++
            dupErrs path 0 [] (.cons h tl)
  | .sep _ => []
/-- Emission order over a sibling sequence. -/
def eNodes (pre : String) (i : Nat) : NodeList → List VErr
  | .nil => []
  | .cons n tl =>
      eNode (pre ++ "[" ++ Nat.repr i ++ "]") n ++ eNodes pre (i + 1) tl
end

/-- Emission order of the whole validation run: per-node records in
traversal order, then the root duplicate-label errors, then the
separator-placement warnings. -/
def eventsConfig (items : NodeList) : List VErr :=
  match items with
  | .nil => [⟨"warning", "root", "Configuration has no items", some "items"⟩]
  | .cons h tl =>
      eNodes "items" 0 (.cons h tl) ++ dupErrs "root" 0 [] (.cons h tl) ++
        sepWarnsList "items" 0 (.cons h tl)

/-- Embedding of ConfigTreeModel._drag_range_for (tree_panel.py lines
423-442): the half-open block [start, end) selected when dragging the
node at the given row.  For a separator the end index advances over every
immediately following non-separator sibling (the while loop advances
while end is in range and the node there is not a separator); for any
other node, and for an out-of-range row, the block is the single row. -/
def dragRangeFor (children : List Node) (row : Nat) : Nat × Nat :=
  if row ≥ children.length then (row, row + 1)
  else
    match children.drop row with
    | [] => (row, row + 1)
    | n :: rest =>
        if n.isSep then
          (row, row + 1 + (rest.takeWhile (fun m => !m.isSep)).length)
        else (row, row + 1)

/-- Embedding of ConfigTreeModel.dropMimeData (tree_panel.py lines
204-263) for a move whose source and destination parent are the same
sibling list (src_list and dst_list alias one Python list; the aliasing
is captured by sequencing the deletion before the insertion).  Steps in
source order: a negative row means append at the end; the block is
src_list[start:end]; the move is rejected (False, list unchanged) when
the block holds a group whose id equals the destination parent id; the
block is deleted; a destination row greater than the source start is
shifted down by the block length; the block is inserted element by
element.  Returns the Python return value paired with the resulting
list. -/
def moveSameParent (parentId : String) (children : List Node)
    (srcStart srcEnd : Nat) (row0 : Int) : Bool × List Node :=
  let row1 : Int := if row0 < 0 then (children.length : Int) else row0
  let block := pySlice children srcStart srcEnd
  if block.any (fun n => n.isGroup && n.nid == parentId) then
    (false, children)
  else
    let remaining := pyDelSlice children srcStart srcEnd
    let row2 : Int :=
      if row1 > (srcStart : Int) then row1 - ((srcEnd : Int) - (srcStart : Int))
      else row1
    (true, insertBlock remaining row2 block)

mutual
/-- Embedding of ConfigTreeModel._find_node_by_id (tree_panel.py lines
412-421): scan the sibling list; a node with the wanted id is returned,
a group is searched recursively before the scan continues. -/
def findInList : NodeList → String → Option Node
  | .nil, _ => none
  | .cons h tl, nid =>
      if h.nid = nid then some h
      else
        match findInNode h nid with
        | some found => some found
        | none => findInList tl nid
/-- The recursive descent of _find_node_by_id into a group node. -/
def findInNode : Node → String → Option Node
  | .group _ _ items, nid => findInList items nid
  | _, _ => none
end

/-- Embedding of ConfigTreeModel._get_children_list (tree_panel.py lines
401-410): the root list for the ROOT sentinel, the items of the group
found by id, the empty list otherwise. -/
def getChildrenList (root : NodeList) (parentId : String) : List Node :=
  if parentId = "ROOT" then root.toList
  else
    match findInList root parentId with
    | some (.group _ _ items) => items.toList
    | _ => []

mutual
/-- True when some node anywhere in the sequence (at any depth) carries
the given id: used to state that one node is a descendant of another. -/
def subtreeHasId : NodeList → String → Bool
  | .nil, _ => false
  | .cons h tl, nid => (h.nid == nid) || nodeHasIdInside h nid || subtreeHasId tl nid
/-- True when some strict descendant of the node carries the given id. -/
def nodeHasIdInside : Node → String → Bool
  | .group _ _ items, nid => subtreeHasId items nid
  | _, _ => false
end

/-- The rejection test of ConfigTreeModel.dropMimeData (tree_panel.py
lines 235-238), the only structural guard the drop runs after the mime
checks: the drop is refused exactly when the dragged block holds a group
node whose id equals the destination parent id.  True means the drop
proceeds to mutate the lists and return True. -/
def dropAccepts (root : NodeList) (srcParentId : String) (srcStart srcEnd : Nat)
    (dstParentId : String) : Bool :=
  let srcList := getChildrenList root srcParentId
  let block := pySlice srcList srcStart srcEnd
  !(block.any (fun n => n.isGroup && n.nid == dstParentId))

/-- Embedding of ConfigTreeModel.canDropMimeData (tree_panel.py lines
184-202) after the format and action checks: dropping with a valid parent
index is refused into a separator, and refused when the parent is not a
group while row is negative; every other combination is allowed. -/
def canDropInto (parentNode : Option Node) (row : Int) : Bool :=
  match parentNode with
  | some (.sep _) => false
  | some n => if !n.isGroup && row < 0 then false else true
  | none => true

/-- Save failure taxonomy of the persistence engine. -/
inductive SaveErr where
  | notFound
  | ioFailure
deriving DecidableEq, Repr

/-- Embedding of YAMLHandler.create_backup (yaml_io.py lines 107-129):
raises FileNotFoundError when the path does not exist, otherwise copies
the file to the timestamped backup path and returns that path. -/
def createBackup (pathExists : Bool) (stem timestamp : String) :
    Except SaveErr String :=
  if !pathExists then .error .notFound
  else .ok (stem ++ ".yaml.bak-" ++ timestamp)

/-- Embedding of YAMLHandler._preserve_comments (yaml_io.py lines
131-162): the simplified implementation rebuilds the output solely from
new_data, so on document content it is the identity in new_data. -/
def preserveComments (newData : Yaml) (_originalYaml : Yaml) : Yaml :=
  newData

/-- Embedding of YAMLHandler.save_yaml (yaml_io.py lines 51-97): the
backup is created first and unconditionally, so a missing path raises
before anything is written; then the tree is dumped, ids are stripped
recursively, comments are preserved when an original document is
available, and the document is written atomically.  Returns the backup
path and the written document. -/
def saveYaml (pathExists : Bool) (stem timestamp : String) (cfg : NodeList)
    (originalYaml : Option Yaml) : Except SaveErr (String × Yaml) := do
  let backupPath ← createBackup pathExists stem timestamp
  let data := removeIds (dumpConfig cfg)
  let newData :=
    match originalYaml with
    | some orig => preserveComments data orig
    | none => data
  pure (backupPath, newData)

/-- Embedding of YAMLHandler.load_yaml (yaml_io.py lines 24-49): a
missing path yields the empty config and no loader context; an existing
file whose parsed document is None does the same; otherwise
Config.model_validate parses the document, a failure surfacing as the
raised ValueError (ParseError). -/
def loadYaml (pathExists : Bool) (content : Option Yaml) :
    Except String (NodeList × Option Yaml) :=
  if !pathExists then .ok (.nil, none)
  else
    match content with
    | none => .ok (.nil, none)
    | some y =>
        match parseConfig y with
        | some cfg => .ok (cfg, some y)
        | none => .error "ParseError"

/-- Embedding of the SaveWindow dataclass of
services/save_coordinator.py: the monotonic deadline and the recorded
file identity (inode, size, mtime in nanoseconds), each None until
end_save records them.  Clock readings and durations are modelled in
integer milliseconds of monotonic time (the source uses float seconds;
the claims depend only on the ordering of instants). -/
structure SaveWindow where
  untilT : Int
  inode : Option Int
  size : Option Int
  mtimeNs : Option Int
deriving DecidableEq, Repr

/-- The per-path window map of SaveCoordinator (paths as strings). -/
abbrev CoordState := List (String × SaveWindow)

/-- Lookup of the window recorded for a path. -/
def coordFind : CoordState → String → Option SaveWindow
  | [], _ => none
  | (p, w) :: tl, path => if p = path then some w else coordFind tl path

/-- Store or replace the window recorded for a path (Python dict
assignment). -/
def coordSet : CoordState → String → SaveWindow → CoordState
  | [], path, w => [(path, w)]
  | (p, w0) :: tl, path, w =>
      if p = path then (p, w) :: tl else (p, w0) :: coordSet tl path w

/-- Remove the window recorded for a path (self._saves.pop(path, None)). -/
def coordRemove : CoordState → String → CoordState
  | [], _ => []
  | (p, w) :: tl, path =>
      if p = path then tl else (p, w) :: coordRemove tl path

/-- Embedding of SaveCoordinator.begin_save (save_coordinator.py lines
28-34): record a fresh window whose deadline is now plus the window
length, with no file identity yet. -/
def beginSave (st : CoordState) (path : String) (now windowS : Int) :
    CoordState :=
  coordSet st path ⟨now + windowS, none, none, none⟩

/-- Embedding of SaveCoordinator.end_save (save_coordinator.py lines
36-48): a failed stat is swallowed; otherwise, when a window exists for
the path, the file identity is recorded and the deadline extended to now
plus 1.5 seconds (1500 milliseconds here). -/
def endSave (st : CoordState) (path : String) (now : Int)
    (statResult : Option (Int × Int × Int)) : CoordState :=
  match statResult with
  | none => st
  | some (ino, sz, mt) =>
      match coordFind st path with
      | none => st
      | some _ => coordSet st path ⟨now + 1500, some ino, some sz, some mt⟩

/-- Embedding of SaveCoordinator.should_ignore_change (save_coordinator.py
lines 50-77): no window means a genuine change; a window past its
deadline is evicted and the change is genuine; a window with no recorded
identity means a save is in flight, so ignore; otherwise the change is
ignored for the rest of the window whatever the stat comparison says
(the identity match, the FileNotFoundError handler and the conservative
fallthrough all return True).  Returns the answer and the updated
state. -/
def shouldIgnoreChange (st : CoordState) (path : String) (now : Int)
    (statResult : Option (Int × Int × Int)) : Bool × CoordState :=
  match coordFind st path with
  | none => (false, st)
  | some w =>
      if now > w.untilT then (false, coordRemove st path)
      else
        match w.inode with
        | none => (true, st)
        | some ino =>
            match statResult with
            | none => (true, st)
            | some (ino2, sz2, mt2) =>
                if ino2 = ino ∧ some sz2 = w.size ∧ some mt2 = w.mtimeNs then
                  (true, st)
                else (true, st)

/-- Embedding of reload_trayrunner (services/reloader.py lines 86-106)
with the transports as oracles: the socket attempt result, and the
outcome each successive CLI invocation would produce (the source invokes
_reload_via_cli exactly once, consulting only attempt 0).  On socket
success the CLI is never consulted; on CLI success its message is
returned; when both fail the messages are joined as
"socket: ...; CLI: ...". -/
def reloadTrayrunner (socketRes : Bool × String)
    (cli : Nat → Bool × String) : Bool × String :=
  if socketRes.1 then (true, socketRes.2)
  else
    let c := cli 0
    if c.1 then (true, c.2)
    else (false, "socket: " ++ socketRes.2 ++ "; CLI: " ++ c.2)

/-- Number of times reload_trayrunner invokes the CLI fallback, read off
the source: zero on the socket-success path, exactly one otherwise
(there is no retry loop and no sleep in reloader.py). -/
def cliAttemptCount (socketOk : Bool) : Nat :=
  if socketOk then 0 else 1

/-- Digits of a decimal numeral to the number it denotes (Python
int(...) on a digit string). -/
def digitsToNat (ds : List Char) : Nat :=
  ds.foldl (fun acc c => acc * 10 + (c.toNat - '0'.toNat)) 0

/-- Match the regular expression of _add_copy_suffix (models/utils.py
line 55) against the end of the label: an optional run of digits
preceded by a run of whitespace, inside a literal "(copy" ... ")" pair
anchored at the end.  Works on the reversed character list; returns the
parsed counter (none for the bare "(copy)") and the characters before
the match, or none when the label does not end in the pattern. -/
def parseCopySuffix (label : String) : Option (Option Nat × List Char) :=
  match label.data.reverse with
  | ')' :: r1 =>
      let ds := r1.takeWhile Char.isDigit
      if ds.isEmpty then
        if r1.take 5 = ['y', 'p', 'o', 'c', '('] then
          some (none, (r1.drop 5).reverse)
        else none
      else
        let r2 := r1.dropWhile Char.isDigit
        if (r2.takeWhile pyIsSpace).isEmpty then none
        else
          let r3 := r2.dropWhile pyIsSpace
          if r3.take 5 = ['y', 'p', 'o', 'c', '('] then
            some (some (digitsToNat ds.reverse), (r3.drop 5).reverse)
          else none
  | _ => none

/-- The label strings of the siblings, as gathered by
ConfigTreeModel.unique_label (tree_panel.py line 491): separators carry
no label attribute and are skipped. -/
def siblingLabels : List Node → List String
  | [] => []
  | .item _ label _ _ _ _ :: tl => label :: siblingLabels tl
  | .group _ label _ :: tl => label :: siblingLabels tl
  | .sep _ :: tl => siblingLabels tl

/-- The counter search loop of ConfigTreeModel.unique_label (tree_panel.py
lines 497-499), with explicit fuel: while the candidate "desired N" is
taken, increment N.  A fuel of one more than the number of sibling
labels bounds the iterations the Python loop can make before finding a
free candidate. -/
def uniqueLabelLoop (desired : String) (labels : List String) :
    Nat → Nat → String
  | counter, 0 => desired ++ " " ++ Nat.repr counter
  | counter, fuel + 1 =>
      if labels.contains (desired ++ " " ++ Nat.repr counter) then
        uniqueLabelLoop desired labels (counter + 1) fuel
      else desired ++ " " ++ Nat.repr counter

/-- Embedding of ConfigTreeModel.unique_label (tree_panel.py lines
476-501): the desired label itself when no sibling carries it, otherwise
the first "desired N" with N counting up from 2 that no sibling
carries. -/
def uniqueLabel (desired : String) (labels : List String) : String :=
  if !labels.contains desired then desired
  else uniqueLabelLoop desired labels 2 (labels.length + 1)

/-- Embedding of _add_copy_suffix (models/utils.py lines 43-66): a label
already ending in "(copy)" or "(copy N)" has its counter incremented
(a missing counter counts as 1), any other label gets " (copy)"
appended; the result passes through the sibling-uniqueness resolver. -/
def addCopySuffix (label : String) (labels : List String) : String :=
  match parseCopySuffix label with
  | some (cOpt, pref) =>
      uniqueLabel
        (String.mk pref ++ "(copy " ++ Nat.repr (cOpt.getD 1 + 1) ++ ")")
        labels
  | none => uniqueLabel (label ++ " (copy)") labels

theorem filter_err_of_all (l : List VErr) (h : ∀ e ∈ l, e.sev = "error") :
    l.filter VErr.isErr = l ∧ l.filter VErr.isWarn = [] := by
  induction l with
  | nil => simp
  | cons a tl ih =>
      have ha := h a (by simp)
      have ih2 := ih (fun e he => h e (by simp [he]))
      refine ⟨?_, ?_⟩
      · simp [List.filter_cons, VErr.isErr, ha, ih2.1]
      · simp [List.filter_cons, VErr.isWarn, ha, ih2.2]

theorem filter_warn_of_all (l : List VErr) (h : ∀ e ∈ l, e.sev = "warning") :
    l.filter VErr.isWarn = l ∧ l.filter VErr.isErr = [] := by
  induction l with
  | nil => simp
  | cons a tl ih =>
      have ha := h a (by simp)
      have ih2 := ih (fun e he => h e (by simp [he]))
      refine ⟨?_, ?_⟩
      · simp [List.filter_cons, VErr.isWarn, ha, ih2.1]
      · simp [List.filter_cons, VErr.isErr, ha, ih2.2]

theorem envErrs_sev (p : String) (env : List (String × String)) :
    ∀ e ∈ envErrs p env, e.sev = "error" := by
  induction env with
  | nil => simp [envErrs]
  | cons kv tl ih =>
      obtain ⟨k, v⟩ := kv
      intro e he
      by_cases hpf : pyFalsyStr k = true
      · simp [envErrs, hpf] at he
        rcases he with h1 | h2
        · simp [h1]
        · exact ih e h2
      · simp [envErrs, hpf] at he
        exact ih e he

theorem itemErrs_sev (p label cmd : String) (env : List (String × String)) :
    ∀ e ∈ itemErrs p label cmd env, e.sev = "error" := by
  intro e he
  by_cases h1 : pyFalsyStr label = true <;> by_cases h2 : pyFalsyStr cmd = true <;>
    simp [itemErrs, h1, h2] at he <;>
    first
      | (rcases he with h | h
         · simp [h]
         · first
            | exact envErrs_sev p env e h
            | (rcases h with h | h
               · simp [h]
               · exact envErrs_sev p env e h))
      | exact envErrs_sev p env e he

theorem dupErrs_sev (p : String) (i : Nat) (seen : List String) (l : NodeList) :
    ∀ e ∈ dupErrs p i seen l, e.sev = "error" := by
  match l with
  | .nil => simp [dupErrs]
  | .cons n tl =>
      intro e he
      match n with
      | .item _ label _ _ _ _ =>
          simp [dupErrs] at he
          rcases he with ⟨_, h1⟩ | h2
          · simp [h1]
          · exact dupErrs_sev p (i + 1) (label :: seen) tl e h2
      | .group _ label _ =>
          simp [dupErrs] at he
          rcases he with ⟨_, h1⟩ | h2
          · simp [h1]
          · exact dupErrs_sev p (i + 1) (label :: seen) tl e h2
      | .sep _ =>
          simp [dupErrs] at he
          exact dupErrs_sev p (i + 1) seen tl e he

mutual
theorem sepWarnsNode_sev (p : String) (i : Nat) (n : Node) (tl : NodeList) :
    ∀ e ∈ sepWarnsNode p i n tl, e.sev = "warning" := by
  match n with
  | .sep _ =>
      intro e he
      by_cases h1 : i = 0 <;> by_cases h2 : tl.isNil = true <;>
        by_cases h3 : tl.headIsSep = true <;>
        simp [sepWarnsNode, h1, h2, h3] at he <;>
        first
          | simp [he]
          | (rcases he with h | h <;> simp [h])
          | (rcases he with h | h | h <;> simp [h])
  | .group _ _ items =>
      intro e he
      simp [sepWarnsNode] at he
      exact sepWarnsList_sev _ 0 items e he
  | .item _ _ _ _ _ _ => simp [sepWarnsNode]
theorem sepWarnsList_sev (p : String) (i : Nat) (l : NodeList) :
    ∀ e ∈ sepWarnsList p i l, e.sev = "warning" := by
  match l with
  | .nil => simp [sepWarnsList]
  | .cons n tl =>
      intro e he
      simp [sepWarnsList] at he
      rcases he with h | h
      · exact sepWarnsNode_sev p i n tl e h
      · exact sepWarnsList_sev p (i + 1) tl e h
end

mutual
theorem vNode_filter (p : String) (n : Node) :
    vNode p n = ((eNode p n).filter VErr.isErr, (eNode p n).filter VErr.isWarn) := by
  match n with
  | .item _ label cmd _ _ env =>
      have h := filter_err_of_all _ (itemErrs_sev p label cmd env)
      simp [vNode, eNode, h.1, h.2]
  | .group _ label items =>
      match items with
      | .nil =>
          by_cases hl : pyFalsyStr label = true <;>
            simp [vNode, eNode, hl, List.filter_cons, VErr.isErr, VErr.isWarn,
              List.filter_append]
      | .cons h0 tl0 =>
          have hrec := vNodes_filter (p ++ ".items") 0 (.cons h0 tl0)
          have hdup := filter_err_of_all _ (dupErrs_sev p 0 [] (.cons h0 tl0))
          by_cases hl : pyFalsyStr label = true <;>
            simp [vNode, eNode, hl, hrec, hdup.1, hdup.2, List.filter_append,
              List.filter_cons, VErr.isErr, VErr.isWarn]
  | .sep _ => simp [vNode, eNode]
theorem vNodes_filter (pre : String) (i : Nat) (l : NodeList) :
    vNodes pre i l =
      ((eNodes pre i l).filter VErr.isErr, (eNodes pre i l).filter VErr.isWarn) := by
  match l with
  | .nil => simp [vNodes, eNodes]
  | .cons n tl =>
      have h1 := vNode_filter (pre ++ "[" ++ Nat.repr i ++ "]") n
      have h2 := vNodes_filter pre (i + 1) tl
      simp [vNodes, eNodes, h1, h2, List.filter_append]
end

/-- Claim C4 (counterexample): the claim that Validate returns the flat
list in emission order fails on the code.  On the tree [Group "G" with no
children, Item with empty label], the traversal emits the group warning
before the item error, but validate_config returns self.errors +
self.warnings, so the error is regrouped in front of the warning. -/
theorem claim_C4_counterexample :
    validateConfig (.cons (.group "g1" "G" .nil)
        (.cons (.item "i1" "" "ls" false false []) .nil))
      ≠ eventsConfig (.cons (.group "g1" "G" .nil)
        (.cons (.item "i1" "" "ls" false false []) .nil)) ∧
    (eventsConfig (.cons (.group "g1" "G" .nil)
        (.cons (.item "i1" "" "ls" false false []) .nil))).map VErr.sev
      = ["warning", "error"] ∧
    (validateConfig (.cons (.group "g1" "G" .nil)
        (.cons (.item "i1" "" "ls" false false []) .nil))).map VErr.sev
      = ["error", "warning"] := by
  refine ⟨by decide, by decide, by decide⟩

/-- Claim C4 (amended): for every tree, Validate returns one flat list
consisting of all errors in emission order followed by all warnings in
emission order (the severity classes are regrouped errors-before-
warnings; within each class the order the rules emitted them during the
depth-first traversal is preserved). -/
theorem claim_C4_amended (items : NodeList) :
    validateConfig items =
      (eventsConfig items).filter VErr.isErr ++
      (eventsConfig items).filter VErr.isWarn := by
  match items with
  | .nil => decide
  | .cons h tl =>
      have hb := vNodes_filter "items" 0 (.cons h tl)
      have hdup := filter_err_of_all _ (dupErrs_sev "root" 0 [] (.cons h tl))
      have hsep := filter_warn_of_all _ (sepWarnsList_sev "items" 0 (.cons h tl))
      simp [validateConfig, eventsConfig, hb, hdup.1, hdup.2, hsep.1, hsep.2,
        List.filter_append, List.append_assoc]

/-- Claim C1: evaluation of the code at the failing input.  For every
tree, loader context and timestamp, save_yaml on a path that does not
exist fails with the NotFound error raised by create_backup before
anything is written; the first-ever save to a brand-new path does not
skip the backup step and does not succeed. -/
theorem claim_C1_save_new_path_fails (stem ts : String) (cfg : NodeList)
    (orig : Option Yaml) :
    saveYaml false stem ts cfg orig = .error .notFound := rfl

/-- Claim C10: Load on an existing file whose parsed content is empty
returns the empty tree and no loader context, exactly the result for a
non-existent path, not a ParseError. -/
theorem claim_C10_load_empty_document (content : Option Yaml) :
    loadYaml true none = .ok (.nil, none) ∧
    loadYaml false content = loadYaml true none := ⟨rfl, rfl⟩

/-- Claim C2: evaluation of the code at the failing input.  In the tree
whose single root is Group g containing Group d, dragging the block that
holds g and dropping it into d passes canDropMimeData (d is a group) and
passes the only structural guard of dropMimeData, although d is a strict
descendant of g: the code accepts the cyclic move instead of rejecting
it (the guard compares the destination id only against the ids of the
dragged groups themselves, never against their descendants).  Dropping g
into g itself is refused. -/
theorem claim_C2_descendant_drop_accepted :
    canDropInto (some (.group "d" "D" .nil)) 0 = true ∧
    dropAccepts (.cons (.group "g" "G" (.cons (.group "d" "D" .nil) .nil)) .nil)
        "ROOT" 0 1 "d" = true ∧
    nodeHasIdInside (.group "g" "G" (.cons (.group "d" "D" .nil) .nil)) "d"
        = true ∧
    dropAccepts (.cons (.group "g" "G" (.cons (.group "d" "D" .nil) .nil)) .nil)
        "ROOT" 0 1 "g" = false := by
  refine ⟨by decide, by decide, by decide, by decide⟩

/-- Claim C3 (counterexample): the claim that the fallback transport is
attempted with a small bounded number of retries separated by a short
delay fails on the code: with the socket down and a CLI transport that
fails on its first invocation but would succeed on a second, the client
returns failure, having consulted only attempt 0 (there is no retry loop
and no sleep in reloader.py). -/
theorem claim_C3_counterexample :
    reloadTrayrunner (false, "socket not found")
        (fun n => if n = 0 then (false, "CLI reload timeout")
                  else (true, "reloaded via CLI"))
      = (false, "socket: socket not found; CLI: CLI reload timeout") ∧
    ((fun n => if n = 0 then (false, "CLI reload timeout")
               else (true, "reloaded via CLI")) 1).1 = true ∧
    cliAttemptCount false = 1 := by
  refine ⟨by decide, by decide, rfl⟩

/-- Claim C3 (amended): when the primary socket transport fails, the
client attempts the CLI fallback exactly once (the outcome depends only
on the first CLI attempt, and the attempt count is one); when that
single attempt also fails, the returned message aggregates both failure
messages as "socket: ...; CLI: ...". -/
theorem claim_C3_amended (sm : String) (cli : Nat → Bool × String)
    (h : (cli 0).1 = false) :
    reloadTrayrunner (false, sm) cli
      = (false, "socket: " ++ sm ++ "; CLI: " ++ (cli 0).2) ∧
    reloadTrayrunner (false, sm) cli
      = reloadTrayrunner (false, sm) (fun _ => cli 0) ∧
    cliAttemptCount false = 1 := by
  refine ⟨?_, rfl, rfl⟩
  simp [reloadTrayrunner, h]

/-- Witness for claim C3 (amended) at a concrete failing CLI transport. -/
theorem claim_C3_amended_witness :
    reloadTrayrunner (false, "socket not found")
        (fun _ => (false, "CLI reload timeout"))
      = (false, "socket: socket not found; CLI: CLI reload timeout") :=
  (claim_C3_amended "socket not found" (fun _ => (false, "CLI reload timeout"))
    rfl).1

/-- Claim C6: evaluation of the label pipeline of the code (models/
utils.py _add_copy_suffix composed with tree_panel.py unique_label) at
the failing input label "Build": the copy gets the label "Build (copy)",
which collides with an existing sibling, so the resolver appends the
ascending counter and yields "Build (copy) 2", distinct from every
existing sibling label; a label already ending in the copy suffix has
its counter incremented. -/
theorem claim_C6_copy_label_pipeline :
    addCopySuffix "Build" ["Build", "Build (copy)"] = "Build (copy) 2" ∧
    (["Build", "Build (copy)"].contains "Build (copy) 2") = false ∧
    addCopySuffix "Build (copy)" ["Build (copy)"] = "Build (copy 2)" ∧
    addCopySuffix "Build (copy 5)" [] = "Build (copy 6)" := by
  refine ⟨by decide, by decide, by decide, by decide⟩

theorem coordFind_coordSet (st : CoordState) (path : String) (w : SaveWindow) :
    coordFind (coordSet st path w) path = some w := by
  induction st with
  | nil => simp [coordSet, coordFind]
  | cons hd tl ih =>
      obtain ⟨p, w0⟩ := hd
      by_cases hp : p = path
      · simp [coordSet, coordFind, hp]
      · simp [coordSet, coordFind, hp, ih]

theorem mem_coordSet (st : CoordState) (path : String) (w : SaveWindow)
    (b : String × SaveWindow) (h : b ∈ coordSet st path w) :
    b ∈ st ∨ b = (path, w) := by
  induction st with
  | nil => simp [coordSet] at h; simp [h]
  | cons hd tl ih =>
      obtain ⟨p, w0⟩ := hd
      by_cases hp : p = path
      · simp [coordSet, hp] at h
        rcases h with h | h
        · right; simp [h]
        · left; simp [h]
      · simp [coordSet, hp] at h
        rcases h with h | h
        · left; simp [h]
        · rcases ih h with h2 | h2
          · left; simp [h2]
          · right; exact h2

theorem coordSet_pairwise (st : CoordState) (path : String) (w : SaveWindow)
    (h : st.Pairwise (fun a b => a.1 ≠ b.1)) :
    (coordSet st path w).Pairwise (fun a b => a.1 ≠ b.1) := by
  induction st with
  | nil => simp [coordSet]
  | cons hd tl ih =>
      obtain ⟨p, w0⟩ := hd
      rw [List.pairwise_cons] at h
      by_cases hp : p = path
      · rw [coordSet, if_pos hp, List.pairwise_cons]
        exact ⟨h.1, h.2⟩
      · rw [coordSet, if_neg hp, List.pairwise_cons]
        refine ⟨?_, ih h.2⟩
        intro b hb
        rcases mem_coordSet tl path w b hb with h2 | h2
        · exact h.1 b h2
        · simpa [h2] using hp

theorem coordFind_eq_none_of_not_mem (st : CoordState) (path : String)
    (h : ∀ w1 : SaveWindow, (path, w1) ∉ st) : coordFind st path = none := by
  induction st with
  | nil => rfl
  | cons hd tl ih =>
      obtain ⟨p, w0⟩ := hd
      have hp : ¬ p = path := by
        intro he
        exact h w0 (by simp [he])
      rw [coordFind, if_neg hp]
      exact ih (fun w1 hw1 => h w1 (List.mem_cons_of_mem _ hw1))

theorem coordFind_coordRemove (st : CoordState) (path : String)
    (h : st.Pairwise (fun a b => a.1 ≠ b.1)) :
    coordFind (coordRemove st path) path = none := by
  induction st with
  | nil => rfl
  | cons hd tl ih =>
      obtain ⟨p, w0⟩ := hd
      rw [List.pairwise_cons] at h
      by_cases hp : p = path
      · rw [coordRemove, if_pos hp]
        refine coordFind_eq_none_of_not_mem tl path ?_
        intro w1 hw1
        exact h.1 (path, w1) hw1 (by simp [hp])
      · rw [coordRemove, if_neg hp, coordFind, if_neg hp]
        exact ih h.2

/-- Claim C9: for every starting state whose per-path entries have
duplicate-free paths (the Python dict invariant), a ShouldIgnore check
made after BeginSave and before EndSave, at an instant no later than the
window deadline, returns true; a check made after the deadline, with
EndSave never called, returns false and evicts the window entry, so
every later check on the evicted state also returns false whatever the
file stat says. -/
theorem claim_C9_save_window (st : CoordState) (path : String)
    (t0 t1 t2 t3 ws : Int) (stat1 stat2 stat3 : Option (Int × Int × Int))
    (hnd : st.Pairwise (fun a b => a.1 ≠ b.1))
    (h1 : t1 ≤ t0 + ws) (h2 : t0 + ws < t2) :
    (shouldIgnoreChange (beginSave st path t0 ws) path t1 stat1).1 = true ∧
    (shouldIgnoreChange (beginSave st path t0 ws) path t2 stat2).1 = false ∧
    coordFind (shouldIgnoreChange (beginSave st path t0 ws) path t2 stat2).2
        path = none ∧
    (shouldIgnoreChange
        (shouldIgnoreChange (beginSave st path t0 ws) path t2 stat2).2
        path t3 stat3).1 = false := by
  have hfind := coordFind_coordSet st path ⟨t0 + ws, none, none, none⟩
  have hno : ¬ (t1 > t0 + ws) := by omega
  have hyes : t2 > t0 + ws := by omega
  have hsnd : (shouldIgnoreChange (beginSave st path t0 ws) path t2 stat2)
      = (false, coordRemove (beginSave st path t0 ws) path) := by
    simp only [shouldIgnoreChange, beginSave, hfind]
    rw [if_pos hyes]
  have hevict : coordFind
      (shouldIgnoreChange (beginSave st path t0 ws) path t2 stat2).2 path
        = none := by
    rw [hsnd]
    exact coordFind_coordRemove _ path
      (coordSet_pairwise st path ⟨t0 + ws, none, none, none⟩ hnd)
  have hgen : ∀ s : CoordState, coordFind s path = none →
      (shouldIgnoreChange s path t3 stat3).1 = false := by
    intro s hs
    simp only [shouldIgnoreChange, hs]
  refine ⟨?_, ?_, hevict, hgen _ hevict⟩
  · simp only [shouldIgnoreChange, beginSave, hfind]
    rw [if_neg hno]
  · rw [hsnd]

/-- Witness for claim C9 at concrete instants: a window opened at 0 with
a 2000 millisecond length, checked at 1000, then at 3000, then at
5000. -/
theorem claim_C9_save_window_witness :
    (shouldIgnoreChange (beginSave [] "p" 0 2000) "p" 1000 none).1 = true ∧
    (shouldIgnoreChange (beginSave [] "p" 0 2000) "p" 3000 none).1 = false ∧
    coordFind (shouldIgnoreChange (beginSave [] "p" 0 2000) "p" 3000 none).2
        "p" = none ∧
    (shouldIgnoreChange
        (shouldIgnoreChange (beginSave [] "p" 0 2000) "p" 3000 none).2
        "p" 5000 none).1 = false :=
  claim_C9_save_window [] "p" 0 1000 3000 5000 2000 none none none
    List.Pairwise.nil (by decide) (by decide)


theorem pyInsert_natCast (l : List α) (j : Nat) (hj : j ≤ l.length) (a : α) :
    pyInsert l (j : Int) a = l.take j ++ a :: l.drop j := by
  have h0 : ¬ ((j : Int) < 0) := by omega
  have h1 : min (j : Int) (l.length : Int) = (j : Int) := by omega
  simp [pyInsert, h0, h1]

theorem insertBlock_natCast (b : List α) : ∀ (dst : List α) (j : Nat),
    j ≤ dst.length →
    insertBlock dst (j : Int) b = dst.take j ++ b ++ dst.drop j := by
  induction b with
  | nil => intro dst j hj; simp [insertBlock]
  | cons x bs ih =>
      intro dst j hj
      rw [insertBlock, pyInsert_natCast dst j hj x]
      have hA : (dst.take j).length = j := by
        simp [List.length_take]
        omega
      have hcast : ((j : Int) + 1) = ((j + 1 : Nat) : Int) := by push_cast; ring
      have hlen : j + 1 ≤ (dst.take j ++ x :: dst.drop j).length := by
        simp [List.length_append, hA]
      rw [hcast, ih _ (j + 1) hlen]
      rw [List.take_append_eq_append_take, List.drop_append_eq_append_drop, hA]
      have e1 : (dst.take j).take (j + 1) = dst.take j :=
        List.take_of_length_le (by omega)
      have e2 : (dst.take j).drop (j + 1) = [] :=
        List.drop_eq_nil_of_le (by omega)
      have e3 : j + 1 - j = 1 := by omega
      rw [e1, e2, e3]
      simp

theorem moveSameParent_spec (pid : String) (children : List Node) (s e d : Nat)
    (hse : s < e) (he : e ≤ children.length)
    (hguard : (pySlice children s e).any
        (fun n => n.isGroup && n.nid == pid) = false)
    (hd : d ≤ s ∨ (e ≤ d ∧ d ≤ children.length)) :
    moveSameParent pid children s e (d : Int)
      = (true,
          (pyDelSlice children s e).take (if s < d then d - (e - s) else d)
          ++ pySlice children s e
          ++ (pyDelSlice children s e).drop (if s < d then d - (e - s) else d)) := by
  have hs_le : s ≤ children.length := le_trans hse.le he
  have hlen : (pyDelSlice children s e).length = s + (children.length - e) := by
    simp [pyDelSlice, List.length_append, List.length_take, List.length_drop,
      max_eq_right hse.le, Nat.min_eq_left hs_le]
  have hd0 : ¬ ((d : Int) < 0) := by omega
  rcases hd with hle | ⟨hge, hlen2⟩
  · have hlt : ¬ (s < d) := by omega
    have hcond : ¬ ((d : Int) > (s : Int)) := by omega
    simp only [moveSameParent, hguard, Bool.false_eq_true, if_false, if_neg hd0,
      if_neg hcond, if_neg hlt]
    rw [insertBlock_natCast (pySlice children s e) (pyDelSlice children s e) d
      (by omega)]
  · have hlt : s < d := by omega
    have hcond : (d : Int) > (s : Int) := by omega
    have hcast : (d : Int) - ((e : Int) - (s : Int))
        = ((d - (e - s) : Nat) : Int) := by
      omega
    simp only [moveSameParent, hguard, Bool.false_eq_true, if_false, if_neg hd0,
      if_pos hcond, if_pos hlt]
    rw [hcast, insertBlock_natCast (pySlice children s e)
      (pyDelSlice children s e) (d - (e - s)) (by omega)]

theorem getD_takeWhile_length (p : α → Bool) (l : List α) (d : α)
    (h : (l.takeWhile p).length < l.length) :
    p (l.getD (l.takeWhile p).length d) = false := by
  induction l with
  | nil => simp at h
  | cons a tl ih =>
      by_cases hp : p a = true
      · rw [List.takeWhile_cons, if_pos hp] at h ⊢
        simp only [List.length_cons, List.getD_cons_succ]
        exact ih (by simpa using h)
      · rw [List.takeWhile_cons, if_neg hp]
        simp only [List.length_nil, List.getD_cons_zero]
        simpa using hp

theorem takeWhile_eq_take_length (p : α → Bool) (l : List α) :
    l.takeWhile p = l.take (l.takeWhile p).length := by
  induction l with
  | nil => rfl
  | cons a tl ih =>
      by_cases hp : p a = true
      · rw [List.takeWhile_cons, if_pos hp, List.length_cons,
          List.take_succ_cons]
        exact congrArg _ ih
      · rw [List.takeWhile_cons, if_neg hp]
        rfl

theorem takeWhile_length_le (p : α → Bool) (l : List α) :
    (l.takeWhile p).length ≤ l.length := by
  induction l with
  | nil => simp
  | cons a tl ih =>
      by_cases hp : p a = true
      · rw [List.takeWhile_cons, if_pos hp]
        simpa using ih
      · rw [List.takeWhile_cons, if_neg hp]
        simp

theorem dragRangeFor_fst (children : List Node) (row : Nat) :
    (dragRangeFor children row).1 = row := by
  rw [dragRangeFor]
  split
  · rfl
  · split
    · rfl
    · split <;> rfl

theorem dragRangeFor_sep_eq (children : List Node) (row : Nat)
    (hrow : row < children.length)
    (hsep : (children.getD row (Node.sep "")).isSep = true) :
    dragRangeFor children row
      = (row, row + 1 + ((children.drop (row + 1)).takeWhile
          (fun m => !m.isSep)).length) := by
  have hnot : ¬ (row ≥ children.length) := by omega
  have hgd := List.getD_eq_getElem children (Node.sep "") hrow
  have hdrop : children.drop row
      = children.getD row (Node.sep "") :: children.drop (row + 1) := by
    rw [hgd]; exact List.drop_eq_getElem_cons hrow
  rw [dragRangeFor, if_neg hnot]
  simp only [hdrop, hsep]
  simp

theorem dragRangeFor_nonsep_eq (children : List Node) (row : Nat)
    (hrow : row < children.length)
    (hsep : (children.getD row (Node.sep "")).isSep = false) :
    dragRangeFor children row = (row, row + 1) := by
  have hnot : ¬ (row ≥ children.length) := by omega
  have hgd := List.getD_eq_getElem children (Node.sep "") hrow
  have hdrop : children.drop row
      = children.getD row (Node.sep "") :: children.drop (row + 1) := by
    rw [hgd]; exact List.drop_eq_getElem_cons hrow
  rw [dragRangeFor, if_neg hnot]
  simp only [hdrop, hsep]
  simp

theorem pySlice_sep_block (children : List Node) (row : Nat)
    (hrow : row < children.length)
    (hsep : (children.getD row (Node.sep "")).isSep = true) :
    pySlice children row (dragRangeFor children row).2
      = children.getD row (Node.sep "")
        :: (children.drop (row + 1)).takeWhile (fun m => !m.isSep) := by
  rw [dragRangeFor_sep_eq children row hrow hsep]
  have hgd := List.getD_eq_getElem children (Node.sep "") hrow
  have hdrop : children.drop row
      = children.getD row (Node.sep "") :: children.drop (row + 1) := by
    rw [hgd]; exact List.drop_eq_getElem_cons hrow
  rw [pySlice, List.drop_take]
  have harith : row + 1 + ((children.drop (row + 1)).takeWhile
      (fun m => !m.isSep)).length - row
      = ((children.drop (row + 1)).takeWhile (fun m => !m.isSep)).length + 1 := by
    omega
  rw [harith, hdrop]
  have htw : ((children.drop (row + 1)).takeWhile (fun m => !m.isSep))
      = (children.drop (row + 1)).take
        ((children.drop (row + 1)).takeWhile (fun m => !m.isSep)).length :=
    takeWhile_eq_take_length _ _
  rw [List.take_succ_cons]
  exact congrArg _ htw.symm

theorem dragRangeFor_sep_end (children : List Node) (row : Nat)
    (hrow : row < children.length)
    (hsep : (children.getD row (Node.sep "")).isSep = true) :
    (dragRangeFor children row).2 = children.length ∨
      ((dragRangeFor children row).2 < children.length ∧
        (children.getD (dragRangeFor children row).2 (Node.sep "")).isSep
          = true) := by
  rw [dragRangeFor_sep_eq children row hrow hsep]
  have hrlen : (children.drop (row + 1)).length = children.length - (row + 1) :=
    List.length_drop _ _
  have htle : ((children.drop (row + 1)).takeWhile
      (fun m => !m.isSep)).length ≤ (children.drop (row + 1)).length :=
    takeWhile_length_le _ _
  by_cases hteq : ((children.drop (row + 1)).takeWhile
      (fun m => !m.isSep)).length = (children.drop (row + 1)).length
  · left; omega
  · right
    have htlt : ((children.drop (row + 1)).takeWhile
        (fun m => !m.isSep)).length < (children.drop (row + 1)).length :=
      lt_of_le_of_ne htle hteq
    refine ⟨by omega, ?_⟩
    have hstop := getD_takeWhile_length (fun m => !m.isSep)
      (children.drop (row + 1)) (Node.sep "") htlt
    have hidx : (children.drop (row + 1)).getD
        ((children.drop (row + 1)).takeWhile (fun m => !m.isSep)).length
        (Node.sep "")
        = children.getD (row + 1 + ((children.drop (row + 1)).takeWhile
            (fun m => !m.isSep)).length) (Node.sep "") := by
      rw [List.getD_eq_getElem _ _ htlt,
        List.getD_eq_getElem _ _ (by omega : row + 1
          + ((children.drop (row + 1)).takeWhile (fun m => !m.isSep)).length
          < children.length)]
      simp [List.getElem_drop]
  -- hstop : !(...).isSep = false
    rw [← hidx]
    simpa using hstop

/-- Claim C5: for every sibling list and every in-range row, the drag
block starts at the dragged row; when that row holds a Separator the
block is exactly the Separator followed by every immediately following
non-Separator sibling, and the block ends at the list end or at the next
Separator; for a non-Separator row the block is the single node; and the
same-parent move relocates the block as one contiguous unit to the
adjusted destination, every sibling outside the block keeping its
relative order (the result is the remaining list with the block spliced
in whole). -/
theorem claim_C5_separator_block_move (pid : String) (children : List Node)
    (row d : Nat) (hrow : row < children.length)
    (hguard : (pySlice children row (dragRangeFor children row).2).any
        (fun n => n.isGroup && n.nid == pid) = false)
    (hd : d ≤ row ∨ ((dragRangeFor children row).2 ≤ d ∧ d ≤ children.length)) :
    (dragRangeFor children row).1 = row ∧
    ((children.getD row (Node.sep "")).isSep = true →
      pySlice children row (dragRangeFor children row).2
        = children.getD row (Node.sep "")
          :: (children.drop (row + 1)).takeWhile (fun m => !m.isSep) ∧
      ((dragRangeFor children row).2 = children.length ∨
        ((dragRangeFor children row).2 < children.length ∧
          (children.getD (dragRangeFor children row).2 (Node.sep "")).isSep
            = true))) ∧
    ((children.getD row (Node.sep "")).isSep = false →
      dragRangeFor children row = (row, row + 1)) ∧
    moveSameParent pid children row (dragRangeFor children row).2 (d : Int)
      = (true,
          (pyDelSlice children row (dragRangeFor children row).2).take
              (if row < d then d - ((dragRangeFor children row).2 - row) else d)
            ++ pySlice children row (dragRangeFor children row).2
            ++ (pyDelSlice children row (dragRangeFor children row).2).drop
              (if row < d then d - ((dragRangeFor children row).2 - row) else d)) := by
  have hbounds : row < (dragRangeFor children row).2 ∧
      (dragRangeFor children row).2 ≤ children.length := by
    by_cases hsep : (children.getD row (Node.sep "")).isSep = true
    · rw [dragRangeFor_sep_eq children row hrow hsep]
      have htle : ((children.drop (row + 1)).takeWhile
          (fun m => !m.isSep)).length ≤ (children.drop (row + 1)).length :=
        takeWhile_length_le _ _
      rw [List.length_drop] at htle
      constructor
      · omega
      · simp only
        omega
    · rw [dragRangeFor_nonsep_eq children row hrow
        (Bool.not_eq_true _ ▸ Bool.of_not_eq_true hsep)]
      constructor
      · omega
      · simpa using hrow
  refine ⟨dragRangeFor_fst children row,
    fun hsep => ⟨pySlice_sep_block children row hrow hsep,
      dragRangeFor_sep_end children row hrow hsep⟩,
    fun hsep => dragRangeFor_nonsep_eq children row hrow hsep,
    moveSameParent_spec pid children row (dragRangeFor children row).2 d
      hbounds.1 hbounds.2 hguard hd⟩

/-- Witness for claim C5: dragging the separator at row 1 of
[X, sep1, A, B, sep2, C] selects the block [sep1, A, B] and moving it to
the end yields [X, sep2, C, sep1, A, B]. -/
theorem claim_C5_witness :
    moveSameParent "ROOT"
        [Node.item "1" "X" "c" false false [], Node.sep "s1",
         Node.item "2" "A" "c" false false [],
         Node.item "3" "B" "c" false false [],
         Node.sep "s2", Node.item "4" "C" "c" false false []]
        1 (dragRangeFor
            [Node.item "1" "X" "c" false false [], Node.sep "s1",
             Node.item "2" "A" "c" false false [],
             Node.item "3" "B" "c" false false [],
             Node.sep "s2", Node.item "4" "C" "c" false false []] 1).2
        ((6 : Nat) : Int)
      = (true,
          [Node.item "1" "X" "c" false false [], Node.sep "s2",
           Node.item "4" "C" "c" false false [], Node.sep "s1",
           Node.item "2" "A" "c" false false [],
           Node.item "3" "B" "c" false false []]) := by
  have h := claim_C5_separator_block_move "ROOT"
    [Node.item "1" "X" "c" false false [], Node.sep "s1",
     Node.item "2" "A" "c" false false [],
     Node.item "3" "B" "c" false false [],
     Node.sep "s2", Node.item "4" "C" "c" false false []]
    1 6 (by decide) (by decide) (by decide)
  exact h.2.2.2

/-- Claim C8: for a same-parent move whose destination index falls at or
after the removed block, the index is decreased by the block length
before insertion, so the block lands exactly at position d minus the
block length of the remaining list (the moved item ends up immediately
before the element originally at index d). -/
theorem claim_C8_same_parent_adjustment (pid : String) (children : List Node)
    (s e d : Nat) (hse : s < e) (he : e ≤ children.length)
    (hguard : (pySlice children s e).any
        (fun n => n.isGroup && n.nid == pid) = false)
    (hd : e ≤ d ∧ d ≤ children.length) :
    moveSameParent pid children s e (d : Int)
      = (true, (pyDelSlice children s e).take (d - (e - s))
          ++ pySlice children s e
          ++ (pyDelSlice children s e).drop (d - (e - s))) := by
  have h := moveSameParent_spec pid children s e d hse he hguard (Or.inr hd)
  rw [h, if_pos (by omega : s < d)]

/-- Witness for claim C8, the five-element scenario of the claim: moving
the single item at index 1 to destination index 4 places it immediately
before the element that was originally at index 4. -/
theorem claim_C8_witness :
    moveSameParent "ROOT"
        [Node.item "1" "a" "c" false false [], Node.item "2" "b" "c" false false [],
         Node.item "3" "x" "c" false false [], Node.item "4" "y" "c" false false [],
         Node.item "5" "z" "c" false false []] 1 2 ((4 : Nat) : Int)
      = (true,
          [Node.item "1" "a" "c" false false [],
           Node.item "3" "x" "c" false false [],
           Node.item "4" "y" "c" false false [],
           Node.item "2" "b" "c" false false [],
           Node.item "5" "z" "c" false false []]) := by
  have h := claim_C8_same_parent_adjustment "ROOT"
    [Node.item "1" "a" "c" false false [], Node.item "2" "b" "c" false false [],
     Node.item "3" "x" "c" false false [], Node.item "4" "y" "c" false false [],
     Node.item "5" "z" "c" false false []] 1 2 4
    (by decide) (by decide) (by decide) ⟨by decide, by decide⟩
  exact h

mutual
theorem noIdKey_removeIds (y : Yaml) : noIdKey (removeIds y) = true := by
  match y with
  | .str s => rfl
  | .bool b => rfl
  | .arr xs => simpa [removeIds, noIdKey] using noIdKeyList_removeIdsList xs
  | .dict kvs => simpa [removeIds, noIdKey] using noIdKeyDict_removeIdsDict kvs
theorem noIdKeyList_removeIdsList (xs : YamlList) :
    noIdKeyList (removeIdsList xs) = true := by
  match xs with
  | .nil => rfl
  | .cons h tl =>
      simp [removeIdsList, noIdKeyList, noIdKey_removeIds h,
        noIdKeyList_removeIdsList tl]
theorem noIdKeyDict_removeIdsDict (kvs : YamlDict) :
    noIdKeyDict (removeIdsDict kvs) = true := by
  match kvs with
  | .nil => rfl
  | .cons k v tl =>
      by_cases hk : k = "id"
      · simpa [removeIdsDict, hk] using noIdKeyDict_removeIdsDict tl
      · simp [removeIdsDict, hk, noIdKeyDict, noIdKey_removeIds v,
          noIdKeyDict_removeIdsDict tl]
end

theorem removeIdsDict_dumpEnv (env : List (String × String))
    (hid : env.all (fun p => p.1 ≠ "id") = true) :
    removeIdsDict (dumpEnv env) = dumpEnv env := by
  induction env with
  | nil => rfl
  | cons kv tl ih =>
      obtain ⟨k, v⟩ := kv
      simp at hid
      simp [dumpEnv, removeIdsDict, hid.1, removeIds, ih (by simpa using hid.2)]

theorem parseEnv_dumpEnv (env : List (String × String)) :
    parseEnv (dumpEnv env) = some env := by
  induction env with
  | nil => rfl
  | cons kv tl ih =>
      obtain ⟨k, v⟩ := kv
      simp [dumpEnv, parseEnv, ih]

theorem validatedText_of_wf (s : String) (h1 : pyFalsyStr s = false)
    (h2 : pyStrip s = s) : validatedText s = some s := by
  simp [validatedText, h1, h2]

mutual
theorem parse_dump_node (n : Node) (hwf : wfNode n = true)
    (hid : noEnvId n = true) :
    parseNode (removeIds (dumpNode n)) = some (eraseIds n) := by
  match n with
  | .item i label cmd t c env =>
      have hw : (!pyFalsyStr label && (pyStrip label = label) &&
          (!pyFalsyStr cmd && (pyStrip cmd = cmd))) = true := hwf
      simp only [Bool.and_eq_true, Bool.not_eq_true', decide_eq_true_eq] at hw
      have h5 : removeIdsDict (dumpEnv env) = dumpEnv env :=
        removeIdsDict_dumpEnv env hid
      simp [dumpNode, removeIds, removeIdsDict, removeIdsList, parseNode,
        YamlDict.find, getBoolField, h5, parseEnv_dumpEnv env,
        validatedText_of_wf label hw.1.1 hw.1.2,
        validatedText_of_wf cmd hw.2.1 hw.2.2, eraseIds]
  | .group i label items =>
      have hw : (!pyFalsyStr label && (pyStrip label = label) &&
          wfList items) = true := hwf
      simp only [Bool.and_eq_true, Bool.not_eq_true', decide_eq_true_eq] at hw
      have hrec := parse_dump_nodes items hw.2 hid
      simp [dumpNode, removeIds, removeIdsDict, removeIdsList, parseNode,
        parseItemsField, YamlDict.find, hrec,
        validatedText_of_wf label hw.1.1 hw.1.2, eraseIds]
  | .sep i => rfl
theorem parse_dump_nodes (l : NodeList) (hwf : wfList l = true)
    (hid : noEnvIdList l = true) :
    parseNodes (removeIdsList (dumpNodes l)) = some (eraseIdsList l) := by
  match l with
  | .nil => rfl
  | .cons h tl =>
      have hw : (wfNode h && wfList tl) = true := hwf
      have hi : (noEnvId h && noEnvIdList tl) = true := hid
      simp only [Bool.and_eq_true] at hw hi
      simp [dumpNodes, removeIdsList, parseNodes,
        parse_dump_node h hw.1 hi.1, parse_dump_nodes tl hw.2 hi.2,
        eraseIdsList]
end

/-- Claim C7 (counterexample): the round-trip claim fails as stated.  In
a tree whose single Item has an env mapping with an entry under the key
"id", Save followed by Load drops that entry: the recursive identifier
stripping of save_yaml removes the key "id" from every mapping,
including env mappings, so the reloaded tree is not equivalent to the
original even after identifiers are disregarded. -/
theorem claim_C7_counterexample :
    ((parseConfig (removeIds (dumpConfig
        (.cons (.item "u1" "B" "make" false false [("id", "x"), ("PATH", "y")])
          .nil)))).map eraseIdsList
      ≠ some (eraseIdsList
          (.cons (.item "u1" "B" "make" false false [("id", "x"), ("PATH", "y")])
            .nil))) ∧
    parseConfig (removeIds (dumpConfig
        (.cons (.item "u1" "B" "make" false false [("id", "x"), ("PATH", "y")])
          .nil)))
      = some (.cons (.item "" "B" "make" false false [("PATH", "y")]) .nil) := by
  refine ⟨by decide, by decide⟩

/-- Claim C7 (amended): for every tree whose labels and commands are
non-empty and stripped (what the schema constructors guarantee) and
whose env mappings carry no entry under the key "id" (the exception the
counterexample forces), Save followed by Load reproduces an equivalent
tree, same variants, field values and order, with all identifiers
erased, and the persisted document never contains an identifier
field. -/
theorem claim_C7_amended (cfg : NodeList) (stem ts : String)
    (orig : Option Yaml)
    (hwf : wfList cfg = true) (hid : noEnvIdList cfg = true) :
    saveYaml true stem ts cfg orig
      = .ok (stem ++ ".yaml.bak-" ++ ts, removeIds (dumpConfig cfg)) ∧
    noIdKey (removeIds (dumpConfig cfg)) = true ∧
    loadYaml true (some (removeIds (dumpConfig cfg)))
      = .ok (eraseIdsList cfg, some (removeIds (dumpConfig cfg))) := by
  have hparse : parseConfig (removeIds (dumpConfig cfg))
      = some (eraseIdsList cfg) := by
    simp [dumpConfig, removeIds, removeIdsDict, removeIdsList, parseConfig,
      YamlDict.find, parse_dump_nodes cfg hwf hid]
  refine ⟨?_, noIdKey_removeIds _, ?_⟩
  · cases orig <;> rfl
  · simp [loadYaml, hparse]

/-- Witness for claim C7 at a concrete three-node tree with an item, a
separator and a nested group. -/
theorem claim_C7_amended_witness :
    loadYaml true (some (removeIds (dumpConfig
        (.cons (.item "u1" "Build" "make" true false [("PATH", "/bin")])
          (.cons (.sep "u2")
            (.cons (.group "u3" "Tools"
              (.cons (.item "u4" "Nested" "ls -la" false true []) .nil))
              .nil))))))
      = .ok (eraseIdsList
          (.cons (.item "u1" "Build" "make" true false [("PATH", "/bin")])
            (.cons (.sep "u2")
              (.cons (.group "u3" "Tools"
                (.cons (.item "u4" "Nested" "ls -la" false true []) .nil))
                .nil))),
          some (removeIds (dumpConfig
            (.cons (.item "u1" "Build" "make" true false [("PATH", "/bin")])
              (.cons (.sep "u2")
                (.cons (.group "u3" "Tools"
                  (.cons (.item "u4" "Nested" "ls -la" false true []) .nil))
                  .nil)))))) :=
  (claim_C7_amended
    (.cons (.item "u1" "Build" "make" true false [("PATH", "/bin")])
      (.cons (.sep "u2")
        (.cons (.group "u3" "Tools"
          (.cons (.item "u4" "Nested" "ls -la" false true []) .nil))
          .nil)))
    "commands" "20260101-120000" none (by decide) (by decide)).2.2
